import Mathlib

/-!
Verification of the hybrid product-recommendation search engine of the
Backend_deploy repository (modules/search), following the two service
implementations:

- `modules/search/shopping_research_service.py` (two-step "shopping research" flow)
- `modules/search/llm_service.py` (single-step "LLM recommendation" flow)

Python floats are modelled as rationals (`ℚ`); fallible external calls
(embedding provider, LLM provider) are modelled as explicit outcome values
(`Except`/`Option` arguments); Python dicts keyed by product/question id are
modelled as insertion-ordered association lists with dict update semantics;
Django querysets over the product/category tables are modelled as Lean lists
of records with explicit filter/sort steps.  The DB-side similarity operators
(trigram similarity, vector distance) are opaque numeric functions passed in
as parameters.
-/

namespace SearchCore

/-- Row of the category table (`modules/categories/models.py`): id, name,
nullable self-referential parent pointer, soft-delete marker
(`deleted_at__isnull=True` becomes `deleted = false`). -/
structure Category where
  id : Nat
  name : String
  parent_id : Option Nat
  deleted : Bool
deriving Repr, DecidableEq

/-- Row of the product table (`modules/products/models.py`), restricted to the
fields the search services read.  `detail_spec_vector` is the nullable
embedding column; `review_rating` is nullable. -/
structure Product where
  danawa_product_id : Nat
  name : String
  brand : String
  lowest_price : Int
  category_id : Nat
  product_status : String
  review_count : Nat
  review_rating : Option ℚ
  detail_spec_vector : Option (List ℚ)
  deleted : Bool
deriving Repr, DecidableEq

/-- Constant `ShoppingResearchService.CACHE_TTL` (seconds). -/
def CACHE_TTL : Nat := 1800

/-- Constant `TOP_K` (both services). -/
def TOP_K : Nat := 5

/-- Constant `ShoppingResearchService.SEARCH_LIMIT`. -/
def SEARCH_LIMIT : Nat := 50

/-- Constant `ShoppingResearchService.VECTOR_WEIGHT`. -/
def VECTOR_WEIGHT : ℚ := 1

/-- Constant `ShoppingResearchService.MIN_SIMILARITY` (60% similarity threshold). -/
def MIN_SIMILARITY : ℚ := 60/100

/-- Constant `LLMRecommendationService.MIN_CAT_SIMILARITY`. -/
def MIN_CAT_SIMILARITY : ℚ := 3/10

/-- Lifecycle statuses excluded by `.exclude(product_status__in=[...])` in both
vector searches. -/
def EXCLUDED_STATUS : List String := ["단종", "판매중지", "품절"]

/-- Contiguous-sublist test over the character lists. -/
def listIsInfix (pat : List Char) : List Char → Bool
  | [] => pat.isEmpty
  | c :: rest => pat.isPrefixOf (c :: rest) || listIsInfix pat rest

/-- Substring test, modelling Python `pat in s`: the pattern occurs as a
contiguous run of characters of `s`. -/
def strContains (s pat : String) : Bool :=
  listIsInfix pat.data s.data

/-- Python `str.upper()`: character-wise upper-casing. -/
def strUpper (s : String) : String :=
  ⟨s.data.map Char.toUpper⟩

/-- Python `str.strip()`: drop whitespace from both ends. -/
def strStrip (s : String) : String :=
  ⟨((s.data.dropWhile Char.isWhitespace).reverse.dropWhile Char.isWhitespace).reverse⟩

/-- Performance-score formula of
`ShoppingResearchService._calculate_performance_score` (lines 698-720):
base similarity weighted 0.7, rating contribution `(review_rating or 0)/25`,
review-count contribution `min(review_count/1000, 0.1)`, capped at 1.0. -/
def calculate_performance_score (product : Product) (combined_score : ℚ) : ℚ :=
  let base_score := combined_score
  let rating_score := (product.review_rating.getD 0) / 25
  let review_score := min ((product.review_count : ℚ) / 1000) (1/10)
  min 1 (base_score * (7/10) + rating_score + review_score)

/-- Modelled from the spec: the performance-score formula as written in §4.5,
`min(1.0, combined_score*0.7 + review_rating/25 + min(review_count/1000, 0.1))`
with an absent rating read as 0.  Used to compare the code formula against the
spec formula. -/
def performanceScoreSpec (combined_score : ℚ) (review_rating : Option ℚ)
    (review_count : Nat) : ℚ :=
  min 1 (combined_score * (7/10) + (review_rating.getD 0) / 25 +
    min ((review_count : ℚ) / 1000) (1/10))

/-- Price-range validation in `ShoppingResearchService.get_recommendations`
(lines 225-227): when both bounds are present and `min_price > max_price`,
both are discarded (`min_price, max_price = None, None`). -/
def validatePriceRange (min_price max_price : Option Int) : Option Int × Option Int :=
  match min_price, max_price with
  | some mn, some mx => if mn > mx then (none, none) else (some mn, some mx)
  | mn, mx => (mn, mx)

/-- Shape of the JSON object parsed out of the survey-analysis LLM response in
`ShoppingResearchService._analyze_survey`; every field is optional because it
comes from `dict.get`. -/
structure RawIntent where
  product_category : Option String
  search_query : Option String
  keywords : Option (List String)
  min_price : Option Int
  max_price : Option Int
  user_needs : Option String
deriving Repr, DecidableEq

/-- The structured intent built by `ShoppingResearchService._analyze_survey`
(the `priorities` map is not read by any code under verification and is
omitted). -/
structure SearchIntent where
  product_category : Option String
  search_query : String
  keywords : List String
  min_price : Option Int
  max_price : Option Int
  user_needs : String
deriving Repr, DecidableEq

/-- `ShoppingResearchService._analyze_survey` (lines 295-354).  The LLM call
plus JSON extraction is modelled by the `parsed` argument: `some raw` when a
JSON object was parsed, `none` when the call failed or nothing parsed.
On success the intent fields default as in lines 331-339; in particular
`max_price` is kept only when positive while `min_price` is kept as-is.
On failure the fallback intent of lines 343-354 is built from the query and
the survey answers. -/
def analyze_survey (user_query : String) (answers : List String)
    (parsed : Option RawIntent) : SearchIntent :=
  match parsed with
  | some intent =>
      { product_category := intent.product_category
        search_query := intent.search_query.getD user_query
        keywords := intent.keywords.getD [user_query]
        min_price := match intent.min_price with
          | some mn => some mn
          | none => none
        max_price := match intent.max_price with
          | some mx => if mx > 0 then some mx else none
          | none => none
        user_needs := intent.user_needs.getD user_query }
  | none =>
      { product_category := none
        search_query := user_query ++ " " ++ String.intercalate " " answers
        keywords := user_query :: answers
        min_price := none
        max_price := none
        user_needs := user_query }

/-- Ids of the active children of `pid`:
`CategoryModel.objects.filter(parent_id=category_id, deleted_at__isnull=True)`
as read by `_get_descendant_category_ids` in both services. -/
def childIds (cats : List Category) (pid : Nat) : List Nat :=
  (cats.filter (fun c => c.parent_id == some pid && !c.deleted)).map (fun c => c.id)

/-- Sequential accumulation of the recursive calls over a child list
(the `for child in children: ids.extend(...)` loop), for a fixed recursive
step `f`.  `none` signals that some recursive call failed to terminate within
its fuel. -/
def descChildrenAux (f : Nat → Option (List Nat)) : List Nat → Option (List Nat)
  | [] => some []
  | cid :: rest =>
    match f cid, descChildrenAux f rest with
    | some l1, some l2 => some (l1 ++ l2)
    | _, _ => none

/-- Fueled form of `_get_descendant_category_ids` (identical in
`shopping_research_service.py` lines 356-362 and `llm_service.py` lines
112-118): `ids = [category_id]` extended with the recursive collection over
every active child.  The Python recursion has no termination guard; fuel
exhaustion (`none`) models non-termination, and the termination theorem shows
that on an acyclic tree enough fuel always exists. -/
def getDescendantCategoryIdsAux (cats : List Category) : Nat → Nat → Option (List Nat)
  | 0, _ => none
  | fuel+1, category_id =>
    match descChildrenAux (getDescendantCategoryIdsAux cats fuel) (childIds cats category_id) with
    | some ls => some (category_id :: ls)
    | none => none

/-- Reachability by parent links going upward: `ReachesUp cats x y` holds when
starting from category id `x` and repeatedly following the (active) parent
pointer we arrive at `y`.  These are exactly the nodes the spec calls
"reachable by following parent links backward" to `y`. -/
inductive ReachesUp (cats : List Category) : Nat → Nat → Prop
  | refl (x : Nat) : ReachesUp cats x x
  | step {x p y : Nat} : x ∈ childIds cats p → ReachesUp cats p y → ReachesUp cats x y

/-- One question of the generated question set (option list omitted; the
claims only concern `question_id` and `question`). -/
structure Question where
  question_id : Nat
  question : String
deriving Repr, DecidableEq

/-- The value stored under `shopping_research:{search_id}` in the Django
cache.  `_generate_search_id` stores the dict `{"user_query": user_query}`;
the optional `questions` field models the presence or absence of a
`"questions"` key in that dict (`get_recommendations` tests
`'questions' in cached_data`). -/
structure CacheEntry where
  user_query : String
  questions : Option (List Question)
deriving Repr, DecidableEq

/-- The Django cache, as a list of (key, timeout-seconds, value) triples;
`cache.set` replaces any entry with the same key. -/
def Cache := List (String × Nat × CacheEntry)

/-- Model of `django.core.cache.cache.set(key, value, timeout)`. -/
def cacheSet (c : Cache) (k : String) (timeout : Nat) (v : CacheEntry) : Cache :=
  (k, timeout, v) :: c.filter (fun e => e.1 != k)

/-- Model of `django.core.cache.cache.get(key)` (returns the stored value,
`none` when the key is absent or expired). -/
def cacheGet (c : Cache) (k : String) : Option CacheEntry :=
  (c.find? (fun e => e.1 == k)).map (fun e => e.2.2)

/-- `ShoppingResearchService._generate_search_id` (lines 47-60): builds
`sr-{uuid hex prefix}` (the fresh uuid fragment is the `newId` argument) and
stores `{"user_query": user_query}` — and nothing else — under
`shopping_research:{search_id}` with timeout `CACHE_TTL`. -/
def generate_search_id (c : Cache) (newId : String) (user_query : String) :
    String × Cache :=
  let search_id := "sr-" ++ newId
  let cache_key := "shopping_research:" ++ search_id
  (search_id, cacheSet c cache_key CACHE_TTL { user_query := user_query, questions := none })

/-- `ShoppingResearchService._validate_search_id` (lines 62-73). -/
def validate_search_id (c : Cache) (search_id : String) : Option CacheEntry :=
  cacheGet c ("shopping_research:" ++ search_id)

/-- The default question set returned when AI generation fails
(`_get_default_questions`, texts of lines 127-169; options omitted). -/
def default_questions : List Question :=
  [{ question_id := 1, question := "주요 사용 목적은 무엇인가요?" },
   { question_id := 2, question := "생각하시는 예산 범위는?" },
   { question_id := 3, question := "디스플레이에서 가장 중요한 점은?" },
   { question_id := 4, question := "휴대성을 어느 정도 고려하시나요?" }]

/-- `ShoppingResearchService.generate_questions` (lines 75-125).  The Gemini
call plus JSON parsing is modelled by `llmQuestions`: `some qs` when a
question list was parsed, `none` when the call failed or nothing parsed (the
except-branch then substitutes the default questions).  In every branch the
cache interaction is exactly the one performed by `_generate_search_id`. -/
def generate_questions (c : Cache) (newId : String) (user_query : String)
    (llmQuestions : Option (List Question)) : (String × List Question) × Cache :=
  let (search_id, c2) := generate_search_id c newId user_query
  match llmQuestions with
  | some qs => ((search_id, qs), c2)
  | none => ((search_id, default_questions), c2)

/-- One survey answer of the second-step request body.  `question = none`
models a missing/empty `question` field (Python falsiness of
`survey.get('question')`). -/
structure Survey where
  question_id : Nat
  question : Option String
  answer : String
deriving Repr, DecidableEq

/-- Dict lookup in `questions_map = {q['question_id']: q['question'] for q in
questions}` (later entries win, as in a Python dict comprehension). -/
def questionsMapGet (qs : List Question) (qid : Nat) : Option String :=
  (qs.reverse.find? (fun q => q.question_id == qid)).map (fun q => q.question)

/-- The question-text fill-in step of
`ShoppingResearchService.get_recommendations` (lines 188-198): only when the
cached session exists and its dict has a `questions` key, survey entries with
a falsy `question` get the cached text (default `질문 {id}`). -/
def fillSurveyQuestions (cached : Option CacheEntry) (surveys : List Survey) :
    List Survey :=
  match cached with
  | some entry =>
    match entry.questions with
    | some qs =>
      surveys.map (fun s =>
        if (s.question.getD "") = "" then
          { s with question := some ((questionsMapGet qs s.question_id).getD
              ("질문 " ++ toString s.question_id)) }
        else s)
    | none => surveys
  | none => surveys

/-- One entry of the candidate lists built by
`LLMRecommendationService._vector_search` / `_keyword_search`:
`{'product': p, 'mall_info': ..., 'score': s}` (the mall-information payload
is display metadata never read by the fusing logic and is omitted). -/
structure LSearchItem where
  product : Product
  score : ℚ
deriving Repr, DecidableEq

/-- Key of an item in the fusion dict: `i['product'].danawa_product_id`. -/
def LSearchItem.pid (i : LSearchItem) : Nat :=
  i.product.danawa_product_id

/-- Python dict insertion for `{pid: item}` maps: replace the entry with the
same key when present, otherwise append preserving insertion order. -/
def dictInsert (res : List LSearchItem) (i : LSearchItem) : List LSearchItem :=
  if res.any (fun x => x.pid == i.pid) then
    res.map (fun y => if y.pid == i.pid then i else y)
  else res ++ [i]

/-- The dict comprehension `{i['product'].danawa_product_id: i for i in vec}`
(later duplicates overwrite earlier ones, insertion order kept). -/
def dictOfList (l : List LSearchItem) : List LSearchItem :=
  l.foldl dictInsert []

/-- One iteration of the keyword loop in
`LLMRecommendationService._fuse_results`: if the product already has a vector
entry its score becomes `vector*0.7 + keyword*0.3`, otherwise the keyword item
is inserted as-is. -/
def fuseStep (res : List LSearchItem) (i : LSearchItem) : List LSearchItem :=
  if res.any (fun x => x.pid == i.pid) then
    res.map (fun y =>
      if y.pid == i.pid then { y with score := y.score * (7/10) + i.score * (3/10) }
      else y)
  else res ++ [i]

/-- `LLMRecommendationService._fuse_results` (lines 250-256): weighted-sum
fusion of the vector-path and keyword-path candidate lists followed by
`sorted(..., key=score, reverse=True)` (stable descending sort). -/
def fuse_results (vec key : List LSearchItem) : List LSearchItem :=
  let res := key.foldl fuseStep (dictOfList vec)
  res.mergeSort (fun a b => decide (b.score ≤ a.score))

/-- One entry of `ShoppingResearchService._vector_search` results:
`{'product': p, 'mall_info': ..., 'vector_score': s}` (mall info omitted). -/
structure SRItem where
  product : Product
  vector_score : ℚ
deriving Repr, DecidableEq

/-- One fused entry of `ShoppingResearchService._fuse_results`, carrying the
combined score. -/
structure SRFused where
  product : Product
  vector_score : ℚ
  combined_score : ℚ
deriving Repr, DecidableEq

/-- Descending lexicographic comparison used by
`fused_results.sort(key=lambda x: (combined_score, review_count,
review_rating or 0), reverse=True)`. -/
def srSortLe (a b : SRFused) : Bool :=
  decide (b.combined_score < a.combined_score) ||
  (b.combined_score == a.combined_score &&
    (decide (b.product.review_count < a.product.review_count) ||
     (b.product.review_count == a.product.review_count &&
      decide (b.product.review_rating.getD 0 ≤ a.product.review_rating.getD 0))))

/-- `ShoppingResearchService._fuse_results` (lines 418-447): keyed dict over
the vector results, combined score `VECTOR_WEIGHT * vector_score`, then sort
descending by (combined score, review count, rating-or-zero). -/
def shoppingFuseResults (vector_results : List SRItem) : List SRFused :=
  let results_map := dictOfList (vector_results.map
    (fun i => { product := i.product, score := i.vector_score }))
  let fused := results_map.map (fun i =>
    { product := i.product, vector_score := i.score,
      combined_score := VECTOR_WEIGHT * i.score })
  fused.mergeSort srSortLe

/-- The threshold/relaxation/truncation selection of
`ShoppingResearchService.get_recommendations` (lines 237-249): filter to
combined score `>= MIN_SIMILARITY`; if fewer than `TOP_K` survive, fall back
to the untruncated fused list; finally take the first `TOP_K`. -/
def selectTopProducts (fused : List SRFused) : List SRFused :=
  let high := fused.filter (fun r => decide (MIN_SIMILARITY ≤ r.combined_score))
  let chosen := if high.length < TOP_K then
      (if fused.isEmpty then [] else fused.take TOP_K)
    else high
  chosen.take TOP_K

/-- Ranking core shared by the tail of both vector searches: exclude the
inactive lifecycle statuses, annotate each product with its distance to the
query embedding, order by distance ascending, truncate, and convert each
distance `d` to the similarity `max(0, 1 - d/2)`. -/
def rankByDistance (dist : List ℚ → List ℚ → ℚ) (qs : List Product)
    (emb : List ℚ) (limit : Nat) : List (Product × ℚ) :=
  let active := qs.filter (fun p => !EXCLUDED_STATUS.contains p.product_status)
  let scored := active.map (fun p => (p, dist (p.detail_spec_vector.getD []) emb))
  let sorted := scored.mergeSort (fun a b => decide (a.2 ≤ b.2))
  (sorted.take limit).map (fun pd => (pd.1, max 0 (1 - pd.2 / 2)))

/-- `ShoppingResearchService._vector_search` (lines 364-416).  The OpenAI
embedding call is the `embedResult` argument (`Except.error` = the call
raised); it is wrapped in try/except, so an error yields `[]`.  `descOf`
stands for `self._get_descendant_category_ids` (verified separately);
`dist` is the DB-side `CosineDistance` operator. -/
def shoppingVectorSearch (descOf : Nat → List Nat) (dist : List ℚ → List ℚ → ℚ)
    (db : List Product) (embedResult : Except String (List ℚ))
    (category_id : Option Nat) (min_price max_price : Option Int) : List SRItem :=
  match embedResult with
  | .error _ => []
  | .ok emb =>
    let queryset := db.filter (fun p => !p.deleted && p.detail_spec_vector.isSome)
    let queryset := match category_id with
      | some cid => queryset.filter (fun p => (descOf cid).contains p.category_id)
      | none => queryset
    let queryset := match min_price with
      | some mn => queryset.filter (fun p => decide (mn ≤ p.lowest_price))
      | none => queryset
    let queryset := match max_price with
      | some mx => queryset.filter (fun p => decide (p.lowest_price ≤ mx))
      | none => queryset
    (rankByDistance dist queryset emb SEARCH_LIMIT).map
      (fun pd => { product := pd.1, vector_score := pd.2 })

/-- The three hardware keywords of the safety lock in
`LLMRecommendationService._vector_search` line 155. -/
def HARDWARE_KEYWORDS : List String := ["CPU", "노트북", "그래픽카드"]

/-- `LLMRecommendationService._vector_search` (lines 147-165).  The embedding
call on line 149 is NOT wrapped in try/except, so an error outcome propagates
(`Except.error`); when the category-id list is non-empty it is applied as a
hard filter, otherwise the safety lock returns `[]` whenever the query names
one of the hardware keywords. -/
def llmVectorSearch (dist : List ℚ → List ℚ → ℚ) (db : List Product)
    (embedResult : Except String (List ℚ)) (query : String)
    (category_ids : List Nat) : Except String (List LSearchItem) :=
  match embedResult with
  | .error e => .error e
  | .ok emb =>
    let qs := db.filter (fun p => !p.deleted && p.detail_spec_vector.isSome)
    if !category_ids.isEmpty then
      .ok ((rankByDistance dist (qs.filter (fun p => category_ids.contains p.category_id)) emb 20).map
        (fun pd => { product := pd.1, score := pd.2 }))
    else if HARDWARE_KEYWORDS.any (fun k => strContains query k) then
      .ok []
    else
      .ok ((rankByDistance dist qs emb 20).map
        (fun pd => { product := pd.1, score := pd.2 }))

/-- `LLMRecommendationService._keyword_search` (lines 240-248): trigram
similarity (`sim`, the DB-side operator) of the product name against the
joined keyword string, floored at 0.05, ordered descending, top 20. -/
def llmKeywordSearch (sim : String → String → ℚ) (db : List Product)
    (keywords : List String) (category_ids : List Nat) : List LSearchItem :=
  if keywords.isEmpty then []
  else
    let qs := db.filter (fun p => !p.deleted)
    let qs := if !category_ids.isEmpty then
        qs.filter (fun p => category_ids.contains p.category_id)
      else qs
    let joined := String.intercalate " " keywords
    let scored := (qs.map (fun p => (p, sim p.name joined))).filter
      (fun ps => decide ((5/100 : ℚ) < ps.2))
    let sorted := scored.mergeSort (fun a b => decide (b.2 ≤ a.2))
    (sorted.take 20).map (fun ps => { product := ps.1, score := ps.2 })

/-- `LLMRecommendationService._generate_fallback_reason` (line 237-238):
deterministic templated sentence built from the product brand. -/
def generate_fallback_reason (p : Product) : String :=
  p.brand ++ "의 신뢰도 높은 모델로, 사용자의 요구 성능을 충실히 만족하는 제품입니다."

/-- Python truthiness of `reason_map.get(p_id) or fallback`: an absent key and
an empty-string (or null) reason both fall back. -/
def orFallback (v : Option String) (fb : String) : String :=
  match v with
  | some s => if s = "" then fb else s
  | none => fb

/-- Lookup in `reason_map` (a Python dict built by iterating the parsed
results; later duplicates win). The value is `r.get('recommendation_reason')`,
which may itself be null. -/
def reasonMapGet (m : List (Nat × Option String)) (pid : Nat) : Option String :=
  match m.reverse.find? (fun r => r.1 == pid) with
  | some r => r.2
  | none => none

/-- One item of the final payload of
`LLMRecommendationService._rerank_with_fallback` (thumbnail and raw spec dict
omitted as display metadata). -/
structure FinalProduct where
  product_code : Nat
  name : String
  brand : String
  price : Int
  recommendation_reason : String
  review_count : Nat
  review_rating : Option ℚ
deriving Repr, DecidableEq

/-- `LLMRecommendationService._rerank_with_fallback` (lines 169-228).  The
batched Gemini call plus JSON extraction is the `outcome` argument: `none`
when the call threw or no JSON block was found (then `reason_map` stays
empty), `some results` when a results list was parsed (each entry a
product-code key with an optional reason).  Every candidate among the first
`TOP_K` fused results gets either its parsed reason or the deterministic
fallback. -/
def rerank_with_fallback (outcome : Option (List (Nat × Option String)))
    (fused : List LSearchItem) : List FinalProduct :=
  let reason_map : List (Nat × Option String) :=
    match outcome with
    | none => []
    | some results => results
  (fused.take TOP_K).map (fun item =>
    let p := item.product
    let final_reason := orFallback (reasonMapGet reason_map p.danawa_product_id)
      (generate_fallback_reason p)
    { product_code := p.danawa_product_id
      name := p.name
      brand := p.brand
      price := p.lowest_price
      recommendation_reason := final_reason
      review_count := p.review_count
      review_rating := p.review_rating })

/-- Recommendation-reason selection of
`ShoppingResearchService._analyze_product` (lines 521-541).  When the batch
analysis supplied an entry (`pre_analysis`), a missing/empty reason falls back
to the brand-and-name template; when no entry was supplied, the service makes
an INDIVIDUAL Gemini call (`_generate_recommendation_reason`, lines 636-666,
modelled by `indivOutcome`): its stripped text is used as-is on success, and
only an exception produces the template. -/
def shoppingRecommendationReason (p : Product)
    (pre_analysis : Option (Option String))
    (indivOutcome : Except String String) : String :=
  match pre_analysis with
  | some pre =>
    match pre with
    | some r => if r = "" then
        p.brand ++ " " ++ p.name ++ "은(는) 요구사항에 적합한 추천 제품입니다."
      else r
    | none => p.brand ++ " " ++ p.name ++ "은(는) 요구사항에 적합한 추천 제품입니다."
  | none =>
    match indivOutcome with
    | .ok text => strStrip text
    | .error _ => p.brand ++ "의 " ++ p.name ++ "은(는) 사용자의 요구사항에 적합한 제품입니다."

/-- Shape of the intent dict parsed by
`LLMRecommendationService._extract_intent_pro`; all reads go through
`dict.get`, hence every field is optional. -/
structure LIntent where
  product_category : Option String
  search_query : Option String
  keywords : Option (List String)
  user_needs : Option String
  analysis_message : Option String
deriving Repr, DecidableEq

/-- The keyword-based category override of
`LLMRecommendationService.get_recommendations` (lines 44-58): tested against
the upper-cased raw user query, fixing both the category id and the display
name. -/
def forcedCategory (user_query : String) : Option (Nat × String) :=
  let upper := strUpper user_query
  if strContains upper "CPU" || strContains upper "프로세서" then some (21, "CPU")
  else if strContains upper "그래픽카드" || strContains upper "GPU" then some (24, "그래픽카드")
  else if strContains upper "모니터" then some (18, "모니터")
  else if strContains upper "노트북" then some (2, "노트북")
  else none

/-- Category fuzzy mapping of `LLMRecommendationService.get_recommendations`
(lines 66-83): exact name match over active categories first, then the best
trigram match above `MIN_CAT_SIMILARITY` (`catSim` is the DB-side
`TrigramSimilarity` operator; `order_by('-similarity').first()` is the head of
the descending sort). -/
def bestCategoryMatch (catSim : String → String → ℚ) (cats : List Category)
    (name : String) : Option Nat :=
  let active := cats.filter (fun c => !c.deleted)
  match active.find? (fun c => c.name == name) with
  | some c => some c.id
  | none =>
    let candidates := active.filter (fun c => decide (MIN_CAT_SIMILARITY < catSim c.name name))
    ((candidates.mergeSort (fun a b => decide (catSim b.name name ≤ catSim a.name name))).head?).map
      (fun c => c.id)

/-- The display category name after the override chain
(`llm_category_name` of lines 41-58). -/
def llmCategoryName (user_query : String) (intent : LIntent) : String :=
  match forcedCategory user_query with
  | some fc => fc.2
  | none => strStrip (intent.product_category.getD "기타")

/-- The resolved category id of `LLMRecommendationService.get_recommendations`
(lines 42-83): the keyword override wins; otherwise fuzzy mapping runs only
for a truthy name different from `기타`. -/
def llmCategoryId (catSim : String → String → ℚ) (cats : List Category)
    (user_query : String) (intent : LIntent) : Option Nat :=
  match forcedCategory user_query with
  | some fc => some fc.1
  | none =>
    let name := strStrip (intent.product_category.getD "기타")
    if name != "" && name != "기타" then bestCategoryMatch catSim cats name
    else none

/-- Response of `LLMRecommendationService.get_recommendations`. -/
structure LResponse where
  analysis_message : String
  recommended_products : List FinalProduct
deriving Repr, DecidableEq

/-- `LLMRecommendationService.get_recommendations` (lines 37-110) from the
point where the intent has been extracted (`intent` models the result of
`_extract_intent_pro`).  `descOf` stands for `_get_descendant_category_ids`,
`catSim`/`sim` for the DB trigram operator, `dist` for `L2Distance`,
`embedResult` for the OpenAI embedding call outcome and `rerankOutcome` for
the batched re-rank Gemini call outcome.  An embedding exception escapes
`_vector_search` and aborts the whole request (`Except.error`), because
`f_vec.result()` re-raises it. -/
def llmGetRecommendations (descOf : Nat → List Nat)
    (catSim sim : String → String → ℚ) (dist : List ℚ → List ℚ → ℚ)
    (cats : List Category) (db : List Product)
    (rerankOutcome : Option (List (Nat × Option String)))
    (user_query : String) (intent : LIntent)
    (embedResult : Except String (List ℚ)) : Except String LResponse :=
  let category_id := llmCategoryId catSim cats user_query intent
  let name := llmCategoryName user_query intent
  let target_category_ids := match category_id with
    | some cid => descOf cid
    | none => []
  match llmVectorSearch dist db embedResult (intent.search_query.getD user_query)
      target_category_ids with
  | .error e => .error e
  | .ok vector_results =>
    let keyword_results := llmKeywordSearch sim db (intent.keywords.getD [user_query])
      target_category_ids
    let fused_results := (fuse_results vector_results keyword_results).take 8
    if fused_results.isEmpty then
      .ok { analysis_message := "'" ++ name ++ "' 카테고리에서 조건에 맞는 상품을 찾지 못했습니다."
            recommended_products := [] }
    else
      .ok { analysis_message := intent.analysis_message.getD (name ++ " 추천 결과입니다.")
            recommended_products := rerank_with_fallback rerankOutcome fused_results }

/-- Concrete product used by the counterexamples: an active, in-stock product
with an embedding vector. -/
def demoProduct : Product :=
  { danawa_product_id := 7001
    name := "인텔 코어 i7-14700K"
    brand := "인텔"
    lowest_price := 450000
    category_id := 21
    product_status := "판매중"
    review_count := 12
    review_rating := some 4
    detail_spec_vector := some [1]
    deleted := false }

/-- Concrete intent for the C2 counterexample: the LLM classified the query as
`기타` (so fuzzy mapping is skipped) but emitted a normalized search string
naming `CPU`. -/
def demoIntent : LIntent :=
  { product_category := some "기타"
    search_query := some "인텔 CPU"
    keywords := some ["인텔"]
    user_needs := none
    analysis_message := none }

/-- Concrete raw user query for the C2 counterexample: names no hardware
keyword of the override chain, so no category id is forced. -/
def demoQuery : String := "인텔 i7 추천"

/-- Trigram-similarity stub for the counterexamples: every name pair scores
0.5 (above the 0.05 keyword floor). -/
def demoSim (a b : String) : ℚ :=
  let _ := a
  let _ := b
  1/2

/-- Distance stub for the counterexamples: every vector pair is at distance
0. -/
def demoDist (a b : List ℚ) : ℚ :=
  let _ := a
  let _ := b
  0

/-- Concrete product with 10,000 reviews for the C6 witness. -/
def demoProduct10k : Product :=
  { danawa_product_id := 7002
    name := "삼성전자 갤럭시북4"
    brand := "삼성전자"
    lowest_price := 1200000
    category_id := 2
    product_status := "판매중"
    review_count := 10000
    review_rating := some 5
    detail_spec_vector := some [1]
    deleted := false }

/-- Concrete raw intent for the C10 witness: extracted `max_price = 0` and
`min_price = 0`. -/
def demoRawIntent : RawIntent :=
  { product_category := some "노트북"
    search_query := some "가성비 노트북"
    keywords := some ["노트북"]
    min_price := some 0
    max_price := some 0
    user_needs := some "가성비" }

/-- Concrete fused candidate list for the C4 witness: two candidates, both
below the 0.60 similarity bar. -/
def demoFusedList : List SRFused :=
  [{ product := demoProduct, vector_score := 1/2, combined_score := 1/2 },
   { product := demoProduct10k, vector_score := 3/10, combined_score := 3/10 }]

/-- Category-similarity stub for the counterexamples: nothing resembles
anything (never above the 0.3 floor). -/
def demoCatSim (a b : String) : ℚ :=
  let _ := a
  let _ := b
  0

/-- Descendant stub for the counterexamples (never consulted: category
resolution yields no id there). -/
def demoDescOf (cid : Nat) : List Nat :=
  let _ := cid
  []

/-- Concrete category table for the C9 witness: the CPU category (21) with
its two children Intel (23) and AMD (22), as in `categories.json`. -/
def demoCats : List Category :=
  [{ id := 21, name := "CPU", parent_id := none, deleted := false },
   { id := 22, name := "AMD", parent_id := some 21, deleted := false },
   { id := 23, name := "인텔", parent_id := some 21, deleted := false }]

/-- Rank function witnessing that `demoCats` is acyclic: children rank below
their parent. -/
def demoRank (n : Nat) : Nat :=
  if n = 21 then 1 else 0

/-- Concrete vector-path candidate used by the C5 and C7 witnesses. -/
def demoLItem : LSearchItem :=
  { product := demoProduct, score := 1 }

/-- The first (and only) final payload item produced by re-ranking the
singleton candidate list with a thrown batch call. -/
def demoFinalItem : FinalProduct :=
  (rerank_with_fallback none [demoLItem]).headD
    { product_code := 0, name := "", brand := "", price := 0,
      recommendation_reason := "", review_count := 0, review_rating := none }

end SearchCore

namespace SearchCore

/-- C6: for every product with rating in [0,5] (or absent) and combined score
in [0,1], the two-step flow performance score equals the spec formula
`min(1.0, combined*0.7 + (rating or 0)/25 + min(review_count/1000, 0.1))` and
lies in [0,1]; large review counts cannot push it above 1. -/
theorem C6_performance_score_bounded (p : Product) (c : ℚ)
    (hr : ∀ r, p.review_rating = some r → 0 ≤ r ∧ r ≤ 5)
    (hc0 : 0 ≤ c) (hc1 : c ≤ 1) :
    calculate_performance_score p c = performanceScoreSpec c p.review_rating p.review_count ∧
    0 ≤ calculate_performance_score p c ∧ calculate_performance_score p c ≤ 1 := by
  have hform : calculate_performance_score p c =
      min 1 (c * (7/10) + (p.review_rating.getD 0) / 25 +
        min ((p.review_count : ℚ) / 1000) (1/10)) := rfl
  refine ⟨rfl, ?_, ?_⟩
  · rw [hform]
    apply le_min
    · norm_num
    · have h1 : 0 ≤ c * (7/10) := by positivity
      have h2 : 0 ≤ (p.review_rating.getD 0) / 25 := by
        cases hp : p.review_rating with
        | none => simp
        | some r =>
          have hy := (hr r hp).1
          simp only [Option.getD_some]
          positivity
      have h3 : 0 ≤ min ((p.review_count : ℚ) / 1000) (1/10) := by
        apply le_min
        · positivity
        · norm_num
      linarith
  · rw [hform]
    exact min_le_left _ _

/-- Closed witness for C6 at the cap-verification input of the spec:
combined score 1, rating 5, review count 10,000. -/
theorem C6_performance_score_bounded_witness :
    0 ≤ calculate_performance_score demoProduct10k 1 ∧
    calculate_performance_score demoProduct10k 1 ≤ 1 := by
  have h := C6_performance_score_bounded demoProduct10k 1
    (by
      intro r hr
      have h5 : (5 : ℚ) = r := by simpa [demoProduct10k] using hr
      rw [← h5]
      norm_num)
    (by norm_num) (le_refl 1)
  exact ⟨h.2.1, h.2.2⟩

/-- C8: when both extracted price bounds are present and the lower bound
exceeds the upper bound, the validation step discards both bounds (neither
erroring nor swapping), and the vector search then runs exactly as with no
price constraint at all. -/
theorem C8_invalid_price_range_discarded (mn mx : Int) (h : mx < mn) :
    validatePriceRange (some mn) (some mx) = (none, none) ∧
    ∀ descOf dist db emb cid,
      shoppingVectorSearch descOf dist db emb cid
        (validatePriceRange (some mn) (some mx)).1
        (validatePriceRange (some mn) (some mx)).2 =
      shoppingVectorSearch descOf dist db emb cid none none := by
  have h1 : validatePriceRange (some mn) (some mx) = (none, none) := by
    simp [validatePriceRange, h]
  refine ⟨h1, ?_⟩
  intro descOf dist db emb cid
  rw [h1]

/-- Closed witness for C8 at the spec inputs `min_price = 2,000,000`,
`max_price = 500,000`. -/
theorem C8_invalid_price_range_discarded_witness :
    validatePriceRange (some 2000000) (some 500000) = (none, none) :=
  (C8_invalid_price_range_discarded 2000000 500000 (by norm_num)).1

/-- C10: in the survey analysis, an extracted non-positive `max_price` is
normalized to `none` (no upper price bound), while `min_price` is kept
exactly as extracted (including 0). -/
theorem C10_nonpositive_max_price_dropped (uq : String) (answers : List String)
    (raw : RawIntent) (mx : Int) (hmx : raw.max_price = some mx) (h : mx ≤ 0) :
    (analyze_survey uq answers (some raw)).max_price = none ∧
    (analyze_survey uq answers (some raw)).min_price = raw.min_price := by
  constructor
  · simp only [analyze_survey, hmx]
    simp [show ¬ (0 : Int) < mx by omega]
  · cases hmn : raw.min_price with
    | none => simp [analyze_survey, hmn]
    | some mn => simp [analyze_survey, hmn]

/-- Closed witness for C10: extracted `max_price = 0` is dropped and
`min_price = 0` is kept. -/
theorem C10_nonpositive_max_price_dropped_witness :
    (analyze_survey "노트북 추천" [] (some demoRawIntent)).max_price = none ∧
    (analyze_survey "노트북 추천" [] (some demoRawIntent)).min_price = some 0 := by
  have h := C10_nonpositive_max_price_dropped "노트북 추천" [] demoRawIntent 0 rfl (le_refl 0)
  exact ⟨h.1, h.2.trans rfl⟩

/-- C4: in the two-step flow, whenever the fused candidate list is non-empty
but fewer than `TOP_K` candidates reach the 0.60 similarity bar, the
threshold is dropped and exactly `min(TOP_K, number of candidates)` items are
selected. -/
theorem C4_threshold_relaxation (fused : List SRFused) (hne : fused ≠ [])
    (hlt : (fused.filter (fun r => decide (MIN_SIMILARITY ≤ r.combined_score))).length < TOP_K) :
    (selectTopProducts fused).length = min TOP_K fused.length := by
  have hE : fused.isEmpty = false := by
    cases fused with
    | nil => exact absurd rfl hne
    | cons a l => rfl
  simp only [selectTopProducts, if_pos hlt, hE, Bool.false_eq_true, if_false,
    List.take_take, List.length_take]
  simp

/-- Closed witness for C4: two candidates, both below the bar, still yield
min(5, 2) = 2 selected items. -/
theorem C4_threshold_relaxation_witness :
    (selectTopProducts demoFusedList).length = min TOP_K demoFusedList.length :=
  C4_threshold_relaxation demoFusedList (by simp [demoFusedList])
    (by norm_num [demoFusedList, MIN_SIMILARITY, TOP_K, List.filter_cons])

/-- C1 counterexample: in the single-step flow, an embedding-provider
exception does NOT make `_vector_search` return an empty list — the call is
not guarded by try/except, so the error propagates out of the vector path. -/
theorem C1_counterexample :
    llmVectorSearch demoDist [demoProduct] (Except.error "boom") "그래픽카드 추천" [] =
      Except.error "boom" ∧
    Except.error "boom" ≠ Except.ok ([] : List LSearchItem) :=
  ⟨rfl, by simp⟩

/-- C1 amended: only the two-step flow degrades an embedding failure to an
empty vector-path result; in the single-step flow the exception escapes
`_vector_search` (and hence fails the whole recommendation request instead of
degrading to keyword-only retrieval). -/
theorem C1_embedding_failure_behavior (descOf : Nat → List Nat)
    (dist : List ℚ → List ℚ → ℚ) (db : List Product) (e : String)
    (cid : Option Nat) (mn mx : Option Int) (q : String) (catids : List Nat) :
    shoppingVectorSearch descOf dist db (Except.error e) cid mn mx = [] ∧
    llmVectorSearch dist db (Except.error e) q catids = Except.error e :=
  ⟨rfl, rfl⟩

/-- C3 (code bug): the question-generation step stores ONLY the user query
under the search id — the generated question set is never written to the
cache — so the cached entry read back by the second step never carries a
question set, the fill-from-cache branch of `get_recommendations` is inert
for sessions created by this flow, and a missing session is likewise a
no-op. -/
theorem C3_questions_never_cached (c : Cache) (newId user_query : String)
    (llmQuestions : Option (List Question)) (surveys : List Survey) :
    cacheGet (generate_questions c newId user_query llmQuestions).2
        ("shopping_research:" ++ (generate_questions c newId user_query llmQuestions).1.1) =
      some { user_query := user_query, questions := none } ∧
    fillSurveyQuestions (some { user_query := user_query, questions := none }) surveys = surveys ∧
    fillSurveyQuestions none surveys = surveys := by
  refine ⟨?_, rfl, rfl⟩
  cases llmQuestions with
  | none => simp [generate_questions, generate_search_id, cacheGet, cacheSet]
  | some qs => simp [generate_questions, generate_search_id, cacheGet, cacheSet]

theorem descChildrenAux_total (f : Nat → Option (List Nat)) (xs : List Nat)
    (h : ∀ x ∈ xs, ∃ l, f x = some l) : ∃ ls, descChildrenAux f xs = some ls := by
  induction xs with
  | nil => exact ⟨[], rfl⟩
  | cons c rest ih =>
    obtain ⟨l1, hl1⟩ := h c (List.mem_cons_self c rest)
    obtain ⟨l2, hl2⟩ := ih (fun x hx => h x (List.mem_cons_of_mem c hx))
    exact ⟨l1 ++ l2, by simp [descChildrenAux, hl1, hl2]⟩

theorem descChildrenAux_sub (f : Nat → Option (List Nat)) (xs : List Nat)
    (ls : List Nat) (h : descChildrenAux f xs = some ls) (x : Nat) (hx : x ∈ xs) :
    ∃ lx, f x = some lx ∧ ∀ y ∈ lx, y ∈ ls := by
  induction xs generalizing ls with
  | nil => cases hx
  | cons c rest ih =>
    simp only [descChildrenAux] at h
    cases hfc : f c with
    | none => rw [hfc] at h; cases h
    | some l1 =>
      cases hrest : descChildrenAux f rest with
      | none => rw [hfc, hrest] at h; cases h
      | some l2 =>
        rw [hfc, hrest] at h
        injection h with h
        subst h
        rcases List.mem_cons.mp hx with rfl | hx2
        · exact ⟨l1, hfc, fun y hy => List.mem_append_left _ hy⟩
        · obtain ⟨lx, hlx, hsub⟩ := ih l2 hrest hx2
          exact ⟨lx, hlx, fun y hy => List.mem_append_right _ (hsub y hy)⟩

theorem descChildrenAux_mem (f : Nat → Option (List Nat)) (xs : List Nat)
    (ls : List Nat) (h : descChildrenAux f xs = some ls) (y : Nat) (hy : y ∈ ls) :
    ∃ x, x ∈ xs ∧ ∃ lx, f x = some lx ∧ y ∈ lx := by
  induction xs generalizing ls with
  | nil =>
    simp only [descChildrenAux] at h
    injection h with h
    subst h
    cases hy
  | cons c rest ih =>
    simp only [descChildrenAux] at h
    cases hfc : f c with
    | none => rw [hfc] at h; cases h
    | some l1 =>
      cases hrest : descChildrenAux f rest with
      | none => rw [hfc, hrest] at h; cases h
      | some l2 =>
        rw [hfc, hrest] at h
        injection h with h
        subst h
        rcases List.mem_append.mp hy with hy1 | hy2
        · exact ⟨c, List.mem_cons_self c rest, l1, hfc, hy1⟩
        · obtain ⟨x, hx, lx, hlx, hylx⟩ := ih l2 hrest hy2
          exact ⟨x, List.mem_cons_of_mem c hx, lx, hlx, hylx⟩

theorem descAux_self_mem (cats : List Category) (fuel categoryId : Nat)
    (l : List Nat) (h : getDescendantCategoryIdsAux cats fuel categoryId = some l) :
    categoryId ∈ l := by
  cases fuel with
  | zero => cases h
  | succ n =>
    simp only [getDescendantCategoryIdsAux] at h
    cases hdc : descChildrenAux (getDescendantCategoryIdsAux cats n) (childIds cats categoryId) with
    | none => rw [hdc] at h; cases h
    | some ls =>
      rw [hdc] at h
      injection h with h
      subst h
      exact List.mem_cons_self _ _

theorem descAux_closed (cats : List Category) :
    ∀ fuel categoryId l, getDescendantCategoryIdsAux cats fuel categoryId = some l →
      ∀ p ∈ l, ∀ x ∈ childIds cats p, x ∈ l := by
  intro fuel
  induction fuel with
  | zero => intro i l h; cases h
  | succ n ih =>
    intro i l h p hp x hx
    simp only [getDescendantCategoryIdsAux] at h
    cases hdc : descChildrenAux (getDescendantCategoryIdsAux cats n) (childIds cats i) with
    | none => rw [hdc] at h; cases h
    | some ls =>
      rw [hdc] at h
      injection h with h
      subst h
      rcases List.mem_cons.mp hp with rfl | hp2
      · obtain ⟨lx, hlx, hsub⟩ := descChildrenAux_sub _ _ _ hdc x hx
        exact List.mem_cons_of_mem _ (hsub x (descAux_self_mem cats n x lx hlx))
      · obtain ⟨c, hc, lc, hlc, hplc⟩ := descChildrenAux_mem _ _ _ hdc p hp2
        have hxlc : x ∈ lc := ih c lc hlc p hplc x hx
        obtain ⟨lc2, hlc2, hsub⟩ := descChildrenAux_sub _ _ _ hdc c hc
        rw [hlc] at hlc2
        injection hlc2 with e
        subst e
        exact List.mem_cons_of_mem _ (hsub x hxlc)

theorem childIds_spec (cats : List Category) (pid x : Nat) (hx : x ∈ childIds cats pid) :
    ∃ c, c ∈ cats ∧ c.id = x ∧ c.parent_id = some pid ∧ c.deleted = false := by
  simp only [childIds, List.mem_map, List.mem_filter, Bool.and_eq_true, beq_iff_eq,
    Bool.not_eq_eq_eq_not, Bool.not_true] at hx
  obtain ⟨c, ⟨hc, hpar, hdel⟩, hid⟩ := hx
  exact ⟨c, hc, hid, hpar, hdel⟩

theorem descAux_total (cats : List Category) (rank : Nat → Nat)
    (hacyc : ∀ c ∈ cats, ∀ p, c.parent_id = some p → rank c.id < rank p) :
    ∀ fuel categoryId, rank categoryId < fuel →
      ∃ l, getDescendantCategoryIdsAux cats fuel categoryId = some l := by
  intro fuel
  induction fuel with
  | zero => intro i h; omega
  | succ n ih =>
    intro i h
    have hch : ∀ x ∈ childIds cats i, ∃ l, getDescendantCategoryIdsAux cats n x = some l := by
      intro x hx
      obtain ⟨c, hc, hid, hpar, _⟩ := childIds_spec cats i x hx
      have hlt : rank x < rank i := hid ▸ hacyc c hc i hpar
      exact ih x (by omega)
    obtain ⟨ls, hls⟩ := descChildrenAux_total _ _ hch
    exact ⟨i :: ls, by simp [getDescendantCategoryIdsAux, hls]⟩

/-- C9: on an acyclic category table (witnessed by a rank function that drops
from child to parent along parent links), the recursive descendant collection
terminates — any fuel above the root's rank suffices — and the returned list
contains the starting id itself together with every category reachable by
following parent links backward to it. -/
theorem descAux_reach (cats : List Category) (x y : Nat) (hx : ReachesUp cats x y) :
    ∀ fuel l, getDescendantCategoryIdsAux cats fuel y = some l → x ∈ l := by
  induction hx with
  | refl z =>
    intro fuel l hl
    exact descAux_self_mem cats fuel z l hl
  | step hchild _ ih =>
    intro fuel l hl
    exact descAux_closed cats fuel _ l hl _ (ih fuel l hl) _ hchild

/-- C9: on an acyclic category table (witnessed by a rank function that drops
from child to parent along parent links), the recursive descendant collection
terminates — any fuel above the root's rank suffices — and the returned list
contains the starting id itself together with every category reachable by
following parent links backward to it. -/
theorem C9_descendants_complete (cats : List Category) (rank : Nat → Nat)
    (hacyc : ∀ c ∈ cats, ∀ p, c.parent_id = some p → rank c.id < rank p)
    (categoryId fuel : Nat) (hfuel : rank categoryId < fuel) :
    ∃ l, getDescendantCategoryIdsAux cats fuel categoryId = some l ∧
      categoryId ∈ l ∧ ∀ x, ReachesUp cats x categoryId → x ∈ l := by
  obtain ⟨l, hl⟩ := descAux_total cats rank hacyc fuel categoryId hfuel
  exact ⟨l, hl, descAux_self_mem cats fuel categoryId l hl,
    fun x hx => descAux_reach cats x categoryId hx fuel l hl⟩

theorem any_pid_eq (res : List LSearchItem) (q : Nat) :
    res.any (fun x => x.pid == q) = true ↔ q ∈ res.map LSearchItem.pid := by
  simp [List.any_eq_true, List.mem_map, beq_iff_eq]

theorem fuseStep_map_pid_of_mem (res : List LSearchItem) (i : LSearchItem)
    (h : res.any (fun x => x.pid == i.pid) = true) :
    (fuseStep res i).map LSearchItem.pid = res.map LSearchItem.pid := by
  simp only [fuseStep, h, if_true]
  rw [List.map_map]
  apply List.map_congr_left
  intro y hy
  by_cases hc : (y.pid == i.pid) = true
  · simp only [Function.comp_apply, hc, if_true]
    exact beq_iff_eq.mp hc ▸ rfl
  · simp only [Function.comp_apply, hc]
    simp

theorem fuseStep_of_not_mem (res : List LSearchItem) (i : LSearchItem)
    (h : res.any (fun x => x.pid == i.pid) = false) :
    fuseStep res i = res ++ [i] := by
  simp [fuseStep, h]

theorem fuseStep_nodup (res : List LSearchItem) (i : LSearchItem)
    (h : (res.map LSearchItem.pid).Nodup) :
    ((fuseStep res i).map LSearchItem.pid).Nodup := by
  by_cases hp : res.any (fun x => x.pid == i.pid) = true
  · rw [fuseStep_map_pid_of_mem res i hp]
    exact h
  · rw [fuseStep_of_not_mem res i (Bool.not_eq_true _ ▸ hp)]
    rw [List.map_append]
    rw [List.nodup_append]
    refine ⟨h, List.nodup_singleton _, ?_⟩
    intro q hq hq2
    simp only [List.map_cons, List.map_nil, List.mem_singleton] at hq2
    subst hq2
    have hnm : i.pid ∉ List.map LSearchItem.pid res := by
      intro hmm
      exact hp ((any_pid_eq res i.pid).mpr hmm)
    exact hnm hq

theorem fold_fuseStep_keeps (key : List LSearchItem) :
    ∀ res a, a ∈ res → (∀ b ∈ key, b.pid ≠ a.pid) →
      a ∈ key.foldl fuseStep res := by
  induction key with
  | nil =>
    intro res a ha _
    simpa using ha
  | cons c rest ih =>
    intro res a ha hb
    have hca : (a.pid == c.pid) = false :=
      beq_eq_false_iff_ne.mpr (Ne.symm (hb c (List.mem_cons_self c rest)))
    have ha2 : a ∈ fuseStep res c := by
      by_cases h : res.any (fun x => x.pid == c.pid) = true
      · simp only [fuseStep, h, if_true]
        have hfix : (fun y => if y.pid == c.pid then
            { y with score := y.score * (7/10) + c.score * (3/10) } else y) a = a := by
          simp [hca]
        exact hfix ▸ List.mem_map_of_mem _ ha
      · rw [fuseStep_of_not_mem res c (Bool.not_eq_true _ ▸ h)]
        exact List.mem_append_left _ ha
    rw [List.foldl_cons]
    exact ih (fuseStep res c) a ha2 (fun b hb2 => hb b (List.mem_cons_of_mem c hb2))

theorem fold_fuseStep_combines (key : List LSearchItem) :
    ∀ res a b, a ∈ res → (res.map LSearchItem.pid).Nodup →
      (key.map LSearchItem.pid).Nodup → b ∈ key → b.pid = a.pid →
      ({ product := a.product, score := a.score * (7/10) + b.score * (3/10) } : LSearchItem) ∈
        key.foldl fuseStep res := by
  induction key with
  | nil =>
    intro res a b _ _ _ hb _
    cases hb
  | cons c rest ih =>
    intro res a b ha hres hkey hb hpid
    rcases List.mem_cons.mp hb with rfl | hb2
    · have hpres : res.any (fun x => x.pid == b.pid) = true := by
        rw [any_pid_eq]
        exact hpid ▸ List.mem_map_of_mem _ ha
      have hupd : ({ product := a.product, score := a.score * (7/10) + b.score * (3/10) } :
          LSearchItem) ∈ fuseStep res b := by
        simp only [fuseStep, hpres, if_true]
        have hfix : (fun y => if y.pid == b.pid then
            { y with score := y.score * (7/10) + b.score * (3/10) } else y) a =
            { product := a.product, score := a.score * (7/10) + b.score * (3/10) } := by
          simp [beq_iff_eq.mpr hpid.symm]
        exact hfix ▸ List.mem_map_of_mem _ ha
      rw [List.foldl_cons]
      apply fold_fuseStep_keeps rest (fuseStep res b) _ hupd
      intro b2 hb2 heq
      have hbn : b.pid ∉ rest.map LSearchItem.pid := (List.nodup_cons.mp hkey).1
      apply hbn
      have hb2b : b2.pid = b.pid := by
        rw [hpid]
        exact heq
      exact hb2b ▸ List.mem_map_of_mem _ hb2
    · have hcb : c.pid ≠ b.pid := by
        intro heq
        exact (List.nodup_cons.mp hkey).1 (heq ▸ List.mem_map_of_mem _ hb2)
      have hca : (a.pid == c.pid) = false :=
        beq_eq_false_iff_ne.mpr (fun h => hcb (h ▸ hpid).symm)
      have ha2 : a ∈ fuseStep res c := by
        by_cases h : res.any (fun x => x.pid == c.pid) = true
        · simp only [fuseStep, h, if_true]
          have hfix : (fun y => if y.pid == c.pid then
              { y with score := y.score * (7/10) + c.score * (3/10) } else y) a = a := by
            simp [hca]
          exact hfix ▸ List.mem_map_of_mem _ ha
        · rw [fuseStep_of_not_mem res c (Bool.not_eq_true _ ▸ h)]
          exact List.mem_append_left _ ha
      rw [List.foldl_cons]
      exact ih (fuseStep res c) a b ha2 (fuseStep_nodup res c hres)
        (List.nodup_cons.mp hkey).2 hb2 hpid

theorem fold_fuseStep_keyonly (key : List LSearchItem) :
    ∀ res b, (key.map LSearchItem.pid).Nodup → b ∈ key →
      b.pid ∉ res.map LSearchItem.pid → b ∈ key.foldl fuseStep res := by
  induction key with
  | nil =>
    intro res b _ hb _
    cases hb
  | cons c rest ih =>
    intro res b hkey hb hnot
    rcases List.mem_cons.mp hb with rfl | hb2
    · have habs : res.any (fun x => x.pid == b.pid) = false := by
        rw [← Bool.not_eq_true]
        exact fun h => hnot ((any_pid_eq res b.pid).mp h)
      rw [List.foldl_cons, fuseStep_of_not_mem res b habs]
      apply fold_fuseStep_keeps rest (res ++ [b]) b
        (List.mem_append_right _ (List.mem_singleton_self b))
      intro b2 hb2 heq
      exact (List.nodup_cons.mp hkey).1 (heq ▸ List.mem_map_of_mem _ hb2)
    · have hcb : c.pid ≠ b.pid := by
        intro heq
        exact (List.nodup_cons.mp hkey).1 (heq ▸ List.mem_map_of_mem _ hb2)
      have hnot2 : b.pid ∉ (fuseStep res c).map LSearchItem.pid := by
        by_cases hpres : res.any (fun x => x.pid == c.pid) = true
        · rw [fuseStep_map_pid_of_mem res c hpres]
          exact hnot
        · rw [fuseStep_of_not_mem res c (Bool.not_eq_true _ ▸ hpres), List.map_append]
          intro hmem
          rcases List.mem_append.mp hmem with h1 | h2
          · exact hnot h1
          · have hb2c : b.pid = c.pid := by
              simpa using h2
            exact hcb hb2c.symm
      rw [List.foldl_cons]
      exact ih (fuseStep res c) b (List.nodup_cons.mp hkey).2 hb2 hnot2

theorem dictInsert_of_not_mem (acc : List LSearchItem) (i : LSearchItem)
    (h : i.pid ∉ acc.map LSearchItem.pid) : dictInsert acc i = acc ++ [i] := by
  have habs : acc.any (fun x => x.pid == i.pid) = false := by
    rw [← Bool.not_eq_true]
    exact fun hc => h ((any_pid_eq acc i.pid).mp hc)
  simp [dictInsert, habs]

theorem foldl_dictInsert_eq (l : List LSearchItem) :
    ∀ acc, (((acc ++ l).map LSearchItem.pid).Nodup) → l.foldl dictInsert acc = acc ++ l := by
  induction l with
  | nil =>
    intro acc _
    simp
  | cons i rest ih =>
    intro acc h
    have hno : i.pid ∉ acc.map LSearchItem.pid := by
      intro hmem
      rw [List.map_append] at h
      exact (List.disjoint_of_nodup_append h) hmem
        (List.mem_map_of_mem LSearchItem.pid (List.mem_cons_self i rest))
    rw [List.foldl_cons, dictInsert_of_not_mem acc i hno]
    have h2 : (((acc ++ [i]) ++ rest).map LSearchItem.pid).Nodup := by
      simpa [List.append_assoc] using h
    rw [ih (acc ++ [i]) h2, List.append_assoc]
    simp

theorem dictOfList_eq (l : List LSearchItem) (h : (l.map LSearchItem.pid).Nodup) :
    dictOfList l = l := by
  simpa using foldl_dictInsert_eq l [] (by simpa using h)

/-- C5: the weighted-sum fuser of the single-step flow. With distinct product
ids inside each path, a product appearing in both paths ends up with combined
score `vector*0.7 + keyword*0.3`, a vector-only product keeps its vector
score, a keyword-only product keeps its keyword score, and the output is
sorted by combined score descending. -/
theorem C5_weighted_fusion (vec key : List LSearchItem)
    (hv : (vec.map LSearchItem.pid).Nodup) (hk : (key.map LSearchItem.pid).Nodup) :
    (∀ a ∈ vec, ∀ b ∈ key, b.pid = a.pid →
        ({ product := a.product, score := a.score * (7/10) + b.score * (3/10) } :
          LSearchItem) ∈ fuse_results vec key) ∧
    (∀ a ∈ vec, (∀ b ∈ key, b.pid ≠ a.pid) → a ∈ fuse_results vec key) ∧
    (∀ b ∈ key, (∀ a ∈ vec, a.pid ≠ b.pid) → b ∈ fuse_results vec key) ∧
    (fuse_results vec key).Pairwise (fun x y => y.score ≤ x.score) := by
  have hdict : dictOfList vec = vec := dictOfList_eq vec hv
  refine ⟨?_, ?_, ?_, ?_⟩
  · intro a ha b hb hpid
    simp only [fuse_results, hdict, List.mem_mergeSort]
    exact fold_fuseStep_combines key vec a b ha hv hk hb hpid
  · intro a ha hnb
    simp only [fuse_results, hdict, List.mem_mergeSort]
    exact fold_fuseStep_keeps key vec a ha hnb
  · intro b hb hna
    simp only [fuse_results, hdict, List.mem_mergeSort]
    apply fold_fuseStep_keyonly key vec b hk hb
    intro hmem
    obtain ⟨a, ha, heq⟩ := List.mem_map.mp hmem
    exact hna a ha heq
  · have htrans : ∀ a b c : LSearchItem, (fun x y : LSearchItem => decide (y.score ≤ x.score)) a b →
        (fun x y : LSearchItem => decide (y.score ≤ x.score)) b c →
        (fun x y : LSearchItem => decide (y.score ≤ x.score)) a c := by
      intro a b c hab hbc
      simp only [decide_eq_true_eq] at hab hbc ⊢
      exact le_trans hbc hab
    have htotal : ∀ a b : LSearchItem, ((fun x y : LSearchItem => decide (y.score ≤ x.score)) a b ||
        (fun x y : LSearchItem => decide (y.score ≤ x.score)) b a) = true := by
      intro a b
      simp only [Bool.or_eq_true, decide_eq_true_eq]
      exact le_total b.score a.score
    have hs := @List.sorted_mergeSort LSearchItem
      (fun x y : LSearchItem => decide (y.score ≤ x.score)) htrans htotal
      (key.foldl fuseStep (dictOfList vec))
    refine List.Pairwise.imp ?_ hs
    intro a b h
    exact decide_eq_true_eq.mp h

/-- Closed witness for C5: a product present in both paths (scores 1 and 1)
appears in the fused output with combined score `1*0.7 + 1*0.3`. -/
theorem C5_weighted_fusion_witness :
    ({ product := demoProduct, score := 1 * (7/10) + 1 * (3/10) } : LSearchItem) ∈
      fuse_results [demoLItem] [demoLItem] :=
  (C5_weighted_fusion [demoLItem] [demoLItem] (by simp) (by simp)).1
    demoLItem (List.mem_singleton_self _) demoLItem (List.mem_singleton_self _) rfl

/-- C2 amended: when the normalized search string names one of the hardware
keywords while category resolution produced no category-id set, the VECTOR
retriever refuses to search and returns no vector candidates; the keyword
path is not blocked, so the request returns whatever the keyword path finds
(category-unconstrained) and is empty only if the keyword path also finds
nothing. -/
theorem C2_safety_lock_vector_refusal (dist : List ℚ → List ℚ → ℚ)
    (db : List Product) (emb : List ℚ) (query : String)
    (hq : HARDWARE_KEYWORDS.any (fun k => strContains query k) = true) :
    llmVectorSearch dist db (Except.ok emb) query [] = Except.ok [] := by
  simp [llmVectorSearch, hq]

/-- Closed witness for the C2 safety lock: the vector path refuses the query
`인텔 CPU` when no category ids were resolved. -/
theorem C2_safety_lock_vector_refusal_witness :
    llmVectorSearch demoDist [demoProduct] (Except.ok [1]) "인텔 CPU" [] = Except.ok [] :=
  C2_safety_lock_vector_refusal demoDist [demoProduct] [1] "인텔 CPU" (by decide)

/-- C2 counterexample: a request whose search string names `CPU` while
category resolution yielded no category id does NOT return zero recommended
products — the keyword path still searches without category constraint and
its results are fused and returned (here: one product). -/
theorem C2_counterexample :
    strContains "인텔 CPU" "CPU" = true ∧
    llmCategoryId demoCatSim [] demoQuery demoIntent = none ∧
    (llmGetRecommendations demoDescOf demoCatSim demoSim demoDist [] [demoProduct]
        none demoQuery demoIntent (Except.ok [1])).map
      (fun r => r.recommended_products.length) = Except.ok 1 := by
  refine ⟨by decide, by decide, ?_⟩
  have h1 : llmCategoryId demoCatSim [] demoQuery demoIntent = none := by decide
  have hhw : HARDWARE_KEYWORDS.any (fun k => strContains "인텔 CPU" k) = true := by decide
  have hvec : llmVectorSearch demoDist [demoProduct] (Except.ok [1]) "인텔 CPU" [] =
      Except.ok [] := by
    simp [llmVectorSearch, hhw]
  have hkey : llmKeywordSearch demoSim [demoProduct] ["인텔"] [] =
      [{ product := demoProduct, score := 1/2 }] := by
    norm_num [llmKeywordSearch, demoSim, demoProduct, List.filter_cons]
  have hfuse : fuse_results [] [({ product := demoProduct, score := 1/2 } : LSearchItem)] =
      [{ product := demoProduct, score := 1/2 }] := by
    simp [fuse_results, dictOfList, fuseStep]
  have hsq : demoIntent.search_query = some "인텔 CPU" := rfl
  have hkw : demoIntent.keywords = some ["인텔"] := rfl
  simp only [llmGetRecommendations, h1, hsq, hkw, Option.getD_some, hvec, hkey, hfuse]
  simp [rerank_with_fallback, reasonMapGet, orFallback, Except.map, TOP_K]

theorem str_append_ne_empty (a b : String) (hb : b ≠ "") : a ++ b ≠ "" := by
  intro h
  apply hb
  apply String.ext
  have hd : a.data ++ b.data = [] := by
    have := congrArg String.data h
    simpa using this
  exact (List.append_eq_nil.mp hd).2

theorem orFallback_ne_empty (v : Option String) (fb : String) (hfb : fb ≠ "") :
    orFallback v fb ≠ "" := by
  cases v with
  | none => exact hfb
  | some s =>
    simp only [orFallback]
    by_cases hs : s = ""
    · simpa [hs] using hfb
    · simpa [hs] using hs

/-- C7 amended: in the single-step flow every output candidate carries a
non-empty recommendation reason — a candidate missing from the parsed batch
response (including a thrown or unparsable call) gets the brand-based
template.  In the two-step flow, a candidate with a batch-analysis entry
always gets a non-empty reason, and a candidate whose individual fallback
LLM call throws gets the brand-and-name template; only a successful
individual call's text is used verbatim. -/
theorem C7_reason_fallback :
    (∀ outcome fused, ∀ item ∈ rerank_with_fallback outcome fused,
        item.recommendation_reason ≠ "") ∧
    (∀ p pre indiv, shoppingRecommendationReason p (some pre) indiv ≠ "") ∧
    (∀ p e, shoppingRecommendationReason p none (Except.error e) ≠ "") := by
  refine ⟨?_, ?_, ?_⟩
  · intro outcome fused item hitem
    simp only [rerank_with_fallback, List.mem_map] at hitem
    obtain ⟨cand, _, hcand⟩ := hitem
    subst hcand
    apply orFallback_ne_empty
    apply str_append_ne_empty
    decide
  · intro p pre indiv
    cases pre with
    | none =>
      simp only [shoppingRecommendationReason]
      apply str_append_ne_empty
      decide
    | some r =>
      simp only [shoppingRecommendationReason]
      by_cases hr : r = ""
      · simp only [hr, if_pos rfl]
        apply str_append_ne_empty
        decide
      · simpa [hr] using hr
  · intro p e
    simp only [shoppingRecommendationReason]
    apply str_append_ne_empty
    decide

/-- Closed witness for C7: re-ranking a single candidate with a thrown batch
call still yields a non-empty (templated) reason. -/
theorem C7_reason_fallback_witness : demoFinalItem.recommendation_reason ≠ "" :=
  C7_reason_fallback.1 none [demoLItem] demoFinalItem (by
    have hEq : rerank_with_fallback none [demoLItem] = [demoFinalItem] := rfl
    rw [hEq]
    exact List.mem_singleton_self _)

/-- C7 counterexample: in the two-step flow, when the batch analysis is
absent (e.g. the batch call threw) the service does not use the template —
it retries an individual LLM call and uses its stripped text verbatim, so a
successful individual call returning an empty string leaves the candidate
with an EMPTY recommendation reason. -/
theorem C7_counterexample :
    shoppingRecommendationReason demoProduct none (Except.ok "") = "" := by
  decide

/-- Closed witness for C9 on the CPU category subtree: with fuel 2 the
collection succeeds for id 21 and contains 21 and everything reaching up to
it. -/
theorem C9_descendants_complete_witness :
    ∃ l, getDescendantCategoryIdsAux demoCats 2 21 = some l ∧
      21 ∈ l ∧ ∀ x, ReachesUp demoCats x 21 → x ∈ l :=
  C9_descendants_complete demoCats demoRank
    (by
      intro c hc p hp
      simp only [demoCats, List.mem_cons, List.not_mem_nil, or_false] at hc
      rcases hc with rfl | rfl | rfl
      · exact Option.noConfusion hp
      · injection hp with h
        subst h
        decide
      · injection hp with h
        subst h
        decide)
    21 2 (by decide)

end SearchCore
